import Mathlib

/-!
Verification of the session/message concurrency and state-machine subsystem of
the Heron wellnest chat-bot backend.

The definitions below are a shallow embedding of the TypeScript source:
  * data model: `src/models/chatSession.model.ts`, `src/models/chatMessage.model.ts`
  * session repository: `src/repository/chatSession.repository.ts`
  * message repository: `ChatMessageRepository` (chatMessage repository file)
  * session service: `src/services/chatSession.service.ts`
  * message service: `ChatMessageService` (chatMessage service file)

The persistent store is modelled as explicit lists of rows; repository calls
become pure functions threading the store; thrown exceptions become values of
an error type.  Timestamps are natural numbers; generated ids and the
encryption codec (an external collaborator) are passed in as parameters.
-/

namespace Heron

/-- Session status enum, from `chatSession.model.ts` (`status` column). -/
inductive Status
  | active
  | waiting_for_bot
  | failed
  | escalated
  | ended
deriving DecidableEq, Repr

/-- Message sender role, from `chatMessage.model.ts` (`role` column). -/
inductive Role
  | student
  | bot
deriving DecidableEq, Repr

/-- Message delivery status, from `chatMessage.model.ts` (`status` column). -/
inductive MsgStatus
  | pending
  | completed
  | failed
deriving DecidableEq, Repr

/-- Encrypted field blob, from `encryptedField.type.ts`. -/
structure EncryptedField where
  iv : String
  content : String
  tag : String
deriving DecidableEq, Repr

/-- Session row, from `chatSession.model.ts` (TypeORM entity `chat_sessions`).
`version` is the `@VersionColumn` used for optimistic locking. -/
structure ChatSession where
  session_id : String
  user_id : String
  status : Status
  insight_id : Option String
  created_at : Nat
  updated_at : Nat
  version : Nat
deriving DecidableEq, Repr

/-- Message row, from `chatMessage.model.ts` (TypeORM entity `chat_messages`).
Note: the entity declares no unique constraint on
(`session_id`, `sequence_number`); the only indexes in the schema are the
primary key and the partial unique index on `chat_sessions`. -/
structure ChatMessage where
  message_id : String
  session_id : String
  user_id : String
  role : Role
  content_encrypted : EncryptedField
  status : MsgStatus
  sequence_number : Nat
  is_deleted : Bool
  created_at : Nat
deriving DecidableEq, Repr

/-- The persistent store: the two tables, rows kept in insertion order. -/
structure Store where
  sessions : List ChatSession
  messages : List ChatMessage
deriving DecidableEq, Repr

/-- Application error, from `appError.type.ts` (statusCode, code, message). -/
structure AppError where
  statusCode : Nat
  code : String
  message : String
deriving DecidableEq, Repr

/-- Thrown errors: `AppError`s, PostgreSQL unique violations (code 23505,
carrying the constraint name), TypeORM `OptimisticLockVersionMismatchError`,
and pub/sub publish failures (rethrown by `publishMessage`). -/
inductive Err
  | app (e : AppError)
  | uniqueViolation (constraint : String)
  | optimisticLock
  | publishError
deriving DecidableEq, Repr

/-- Equality of thrown-or-returned results is decidable. -/
instance (priority := low) exceptDecEq {ε α : Type} [DecidableEq ε] [DecidableEq α] :
    DecidableEq (Except ε α) := fun x y =>
  match x, y with
  | Except.ok a, Except.ok b =>
    match decEq a b with
    | isTrue h => isTrue (by rw [h])
    | isFalse h => isFalse (by intro hc; injection hc; exact h (by assumption))
  | Except.error a, Except.error b =>
    match decEq a b with
    | isTrue h => isTrue (by rw [h])
    | isFalse h => isFalse (by intro hc; injection hc; exact h (by assumption))
  | Except.ok _, Except.error _ => isFalse (by intro hc; exact Except.noConfusion hc)
  | Except.error _, Except.ok _ => isFalse (by intro hc; exact Except.noConfusion hc)

/-- Whether `needle` occurs at the front of `hay` (on character lists). -/
def charsStartWith : List Char → List Char → Bool
  | _, [] => true
  | [], _ :: _ => false
  | a :: as, b :: bs => a == b && charsStartWith as bs

/-- Whether `needle` occurs anywhere in the character list. -/
def charsContain (needle : List Char) : List Char → Bool
  | [] => charsStartWith [] needle
  | a :: t => charsStartWith (a :: t) needle || charsContain needle t

/-- Models JavaScript `String.prototype.includes`. -/
def strContains (hay needle : String) : Bool :=
  charsContain needle.data hay.data

/-- Whether a status counts toward the one-in-progress-session-per-user
invariant; the in-progress set used by the partial unique index
`idx_one_active_session_per_user` and by `findLatestUserSession`. -/
def inProgress (s : Status) : Prop :=
  s = Status.active ∨ s = Status.waiting_for_bot ∨ s = Status.failed

instance (s : Status) : Decidable (inProgress s) := by
  unfold inProgress; infer_instance

/-! ## Session repository (`chatSession.repository.ts`) -/

/-- `findSessionById`: first session row matching id and owner. -/
def findSessionById (session_id user_id : String) (st : Store) : Option ChatSession :=
  st.sessions.find? (fun s => decide (s.session_id = session_id ∧ s.user_id = user_id))

/-- Pick the row with the greatest `created_at` (SQL `ORDER BY created_at DESC`
with `findOne`); first such row wins on ties. -/
def latestSessionByCreatedAt (l : List ChatSession) : Option ChatSession :=
  l.foldl (fun acc s =>
    match acc with
    | none => some s
    | some a => if s.created_at > a.created_at then some s else some a) none

/-- The `where` clause of `findLatestUserSession` and of the partial unique
index: the session belongs to the user and is in-progress. -/
def inProgressOf (user_id : String) (s : ChatSession) : Bool :=
  decide (s.user_id = user_id ∧ inProgress s.status)

/-- `findLatestUserSession`: most recent session of the user whose status is
in {active, waiting_for_bot, failed}. -/
def findLatestUserSession (user_id : String) (st : Store) : Option ChatSession :=
  latestSessionByCreatedAt (st.sessions.filter (inProgressOf user_id))

/-- Bump of a session row performed by a successful TypeORM `save`:
the `@VersionColumn` increments and `@UpdateDateColumn` is refreshed. -/
def bumpVersion (cs : ChatSession) (now : Nat) : ChatSession :=
  { cs with version := cs.version + 1, updated_at := now }

/-- `updateSession` (TypeORM `save` of an entity with a `@VersionColumn`):
looks the row up by primary key; if the stored version differs from the
version of the entity being saved, `OptimisticLockVersionMismatchError`
is thrown; otherwise the row is replaced with the version bumped. -/
def updateSession (cs : ChatSession) (now : Nat) (st : Store) :
    Except Err ChatSession × Store :=
  match st.sessions.find? (fun s => decide (s.session_id = cs.session_id)) with
  | none => (Except.error Err.optimisticLock, st)
  | some stored =>
    if stored.version = cs.version then
      let updated := bumpVersion cs now
      (Except.ok updated,
        { st with sessions :=
            st.sessions.map (fun s =>
              if s.session_id = cs.session_id then updated else s) })
    else (Except.error Err.optimisticLock, st)

/-- Raw insert of a fresh session row (TypeORM `save` of a new entity).
The partial unique index `idx_one_active_session_per_user` on `chat_sessions`
(unique on `user_id` where status in {active, waiting_for_bot, failed})
rejects the insert with PostgreSQL error 23505 when the user already has an
in-progress session.  A new row defaults to status `active`, version 1. -/
def newSessionRow (session_id : String) (now : Nat) (user_id : String) : ChatSession :=
  { session_id := session_id, user_id := user_id, status := Status.active,
    insight_id := none, created_at := now, updated_at := now, version := 1 }

/-- Raw insert of a fresh session row (TypeORM `save` of a new entity),
guarded by the partial unique index. -/
def saveNewSession (session_id : String) (now : Nat) (user_id : String) (st : Store) :
    Except Err (ChatSession × Store) :=
  if st.sessions.any (inProgressOf user_id) then
    Except.error (Err.uniqueViolation "idx_one_active_session_per_user")
  else
    let entry : ChatSession := newSessionRow session_id now user_id
    Except.ok (entry, { st with sessions := st.sessions ++ [entry] })

/-- Result of `getTorCreateActiveSession`, from `getOrCreateSessionResult.type.ts`. -/
structure GetOrCreateSessionResult where
  session : ChatSession
  created : Bool
deriving DecidableEq, Repr

/-- `createSession` (repository): attempts the insert; on a 23505 unique
violation whose constraint name includes `active_session`, re-fetches the
concurrently created session and returns it with `created := false`;
otherwise the error is rethrown. -/
def createSession (session_id : String) (now : Nat) (user_id : String) (st : Store) :
    Except Err GetOrCreateSessionResult × Store :=
  match saveNewSession session_id now user_id st with
  | Except.ok (session, st') =>
      (Except.ok { session := session, created := true }, st')
  | Except.error e =>
    match e with
    | Err.uniqueViolation c =>
      if strContains c "active_session" then
        match findLatestUserSession user_id st with
        | some existing =>
            (Except.ok { session := existing, created := false }, st)
        | none => (Except.error e, st)
      else (Except.error e, st)
    | _ => (Except.error e, st)

/-! ## Message repository (`ChatMessageRepository`) -/

/-- One comparison step of the `ORDER BY created_at DESC` scan. -/
def laterOf (acc : Option ChatMessage) (m : ChatMessage) : Option ChatMessage :=
  match acc with
  | none => some m
  | some a => if m.created_at > a.created_at then some m else some a

/-- Pick the message with the greatest `created_at` (SQL
`ORDER BY created_at DESC` with `findOne`); first such row wins on ties. -/
def latestByCreatedAt (l : List ChatMessage) : Option ChatMessage :=
  l.foldl laterOf none

/-- The `where` clause {user_id, session_id} on messages. -/
def msgOfSession (user_id session_id : String) (m : ChatMessage) : Bool :=
  decide (m.user_id = user_id ∧ m.session_id = session_id)

/-- The `where` clause {user_id, session_id, is_deleted: false} of
`findLatestMessageBySession`. -/
def msgLive (user_id session_id : String) (m : ChatMessage) : Bool :=
  decide (m.user_id = user_id ∧ m.session_id = session_id ∧ m.is_deleted = false)

/-- `findMessageById`: first message matching session, id and owner.
Note: this lookup has no `is_deleted` and no `role` filter in the source. -/
def findMessageById (session_id message_id user_id : String) (st : Store) :
    Option ChatMessage :=
  st.messages.find? (fun m =>
    decide (m.session_id = session_id ∧ m.message_id = message_id ∧ m.user_id = user_id))

/-- `findLatestMessageBySession`: most recent non-deleted message of the
session (any role). -/
def findLatestMessageBySession (user_id session_id : String) (st : Store) :
    Option ChatMessage :=
  latestByCreatedAt (st.messages.filter (msgLive user_id session_id))

/-- `findLatestUserMessageBySession`: most recent non-deleted student message. -/
def findLatestUserMessageBySession (user_id session_id : String) (st : Store) :
    Option ChatMessage :=
  latestByCreatedAt (st.messages.filter (fun m =>
    decide (m.user_id = user_id ∧ m.session_id = session_id ∧
      m.role = Role.student ∧ m.is_deleted = false)))

/-- `findLatestBotMessageBySession`: most recent non-deleted bot message. -/
def findLatestBotMessageBySession (user_id session_id : String) (st : Store) :
    Option ChatMessage :=
  latestByCreatedAt (st.messages.filter (fun m =>
    decide (m.user_id = user_id ∧ m.session_id = session_id ∧
      m.role = Role.bot ∧ m.is_deleted = false)))

/-- `createMessage` (repository insert).  Per the declared schema
(`chatMessage.model.ts`) there is no unique constraint on
(`session_id`, `sequence_number`), so the insert always succeeds; the new row
gets delivery status `pending` and `is_deleted := false` (column defaults). -/
def createMessage (message_id : String) (now : Nat) (user_id session_id : String)
    (role : Role) (content_encrypted : EncryptedField) (sequence_number : Nat)
    (st : Store) : ChatMessage × Store :=
  let entry : ChatMessage :=
    { message_id := message_id, session_id := session_id, user_id := user_id,
      role := role, content_encrypted := content_encrypted,
      status := MsgStatus.pending, sequence_number := sequence_number,
      is_deleted := false, created_at := now }
  (entry, { st with messages := st.messages ++ [entry] })

/-- `softDelete` (message repository): sets `is_deleted := true` on the
matching rows. -/
def softDelete (session_id message_id user_id : String) (st : Store) : Store :=
  { st with messages := st.messages.map (fun m =>
      if m.session_id = session_id ∧ m.message_id = message_id ∧ m.user_id = user_id
      then { m with is_deleted := true } else m) }

/-! ## Session service (`chatSession.service.ts`) -/

/-- The allowed status transitions, verbatim from `ALLOWED_TRANSITIONS` in
`chatSession.service.ts`. -/
def ALLOWED_TRANSITIONS : Status → List Status
  | Status.active => [Status.ended, Status.waiting_for_bot, Status.escalated]
  | Status.waiting_for_bot => [Status.active, Status.ended, Status.escalated, Status.failed]
  | Status.failed => [Status.active, Status.ended, Status.escalated]
  | Status.escalated => []
  | Status.ended => []

/-- Rendering of a status value into the error-message text. -/
def statusName : Status → String
  | Status.active => "active"
  | Status.waiting_for_bot => "waiting_for_bot"
  | Status.failed => "failed"
  | Status.escalated => "escalated"
  | Status.ended => "ended"

/-- The `AppError` thrown by the mark* methods when a transition edge is not
in `ALLOWED_TRANSITIONS` (HTTP 400, code INVALID_STATUS_TRANSITION). -/
def invalidTransitionError (src tgt : Status) : AppError :=
  { statusCode := 400, code := "INVALID_STATUS_TRANSITION",
    message := "Cannot transition status from " ++ statusName src ++
      " to " ++ statusName tgt ++ "." }

/-- One attempt of the shared body of `markWaitingForBot` / `markActive` /
`markEscalated` / `markCloseSession`: read the session scoped to the user
(`null` when absent), validate the target against `ALLOWED_TRANSITIONS`
(throwing `invalidTransitionError` otherwise), set the status and save with
optimistic locking.  In a run without concurrent interference the saved
version always matches the version just read, so this single attempt is the
whole loop; the retry behaviour under interference is modelled separately by
`markStatusRetry`. -/
def markStatus (tgt : Status) (sessionId userId : String) (now : Nat) (st : Store) :
    Except Err (Option ChatSession) × Store :=
  match findSessionById sessionId userId st with
  | none => (Except.ok none, st)
  | some session =>
    if tgt ∈ ALLOWED_TRANSITIONS session.status then
      match updateSession { session with status := tgt } now st with
      | (Except.ok updated, st') => (Except.ok (some updated), st')
      | (Except.error e, st') => (Except.error e, st')
    else (Except.error (Err.app (invalidTransitionError session.status tgt)), st)

/-- `markWaitingForBot` (sequential semantics). -/
def markWaitingForBot (sessionId userId : String) (now : Nat) (st : Store) :
    Except Err (Option ChatSession) × Store :=
  markStatus Status.waiting_for_bot sessionId userId now st

/-- `markActive` (sequential semantics). -/
def markActive (sessionId userId : String) (now : Nat) (st : Store) :
    Except Err (Option ChatSession) × Store :=
  markStatus Status.active sessionId userId now st

/-- `markEscalated` (sequential semantics). -/
def markEscalated (sessionId userId : String) (now : Nat) (st : Store) :
    Except Err (Option ChatSession) × Store :=
  markStatus Status.escalated sessionId userId now st

/-- `markCloseSession` (sequential semantics). -/
def markCloseSession (sessionId userId : String) (now : Nat) (st : Store) :
    Except Err (Option ChatSession) × Store :=
  markStatus Status.ended sessionId userId now st

/-- What one iteration of the mark* retry loop observes when concurrent
writers may interleave between iterations: the session row read by
`findSessionById` on that attempt, whether the subsequent optimistic save
hits a version conflict, and the save timestamp. -/
structure AttemptView where
  found : Option ChatSession
  conflicts : Bool
  now : Nat
deriving DecidableEq, Repr

/-- The retry loop of the mark* methods (`for` loop with `try`/`catch`),
abstracted over an `oracle` giving each attempt its view of the store:
read the session (`return null` when absent), re-validate the transition
table, save; on `OptimisticLockVersionMismatchError` with
`attempt < maxRetries - 1` continue with the next attempt, otherwise
rethrow; any other error is rethrown at once.  The fuel argument equals
`maxRetries - attempt`, so the loop exits after `maxRetries` iterations
(the trailing `return null` of the source). -/
def markStatusRetryGo (tgt : Status) (oracle : Nat → AttemptView) (maxRetries : Nat) :
    Nat → Nat → Except Err (Option ChatSession)
  | _, 0 => Except.ok none
  | attempt, fuel + 1 =>
    let a := oracle attempt
    match a.found with
    | none => Except.ok none
    | some session =>
      if tgt ∈ ALLOWED_TRANSITIONS session.status then
        if a.conflicts then
          if attempt < maxRetries - 1 then
            markStatusRetryGo tgt oracle maxRetries (attempt + 1) fuel
          else Except.error Err.optimisticLock
        else Except.ok (some (bumpVersion { session with status := tgt } a.now))
      else Except.error (Err.app (invalidTransitionError session.status tgt))

/-- The mark* retry loop started at attempt 0 (source default `maxRetries = 3`). -/
def markStatusRetry (tgt : Status) (oracle : Nat → AttemptView) (maxRetries : Nat) :
    Except Err (Option ChatSession) :=
  markStatusRetryGo tgt oracle maxRetries 0 maxRetries

/-- `getOrCreateActiveSession`: return the existing in-progress session with
`created := false`, otherwise delegate to the repository `createSession`
(which absorbs the uniqueness race). -/
def getOrCreateActiveSession (newSessionId : String) (now : Nat) (userId : String)
    (st : Store) : Except Err GetOrCreateSessionResult × Store :=
  match findLatestUserSession userId st with
  | some existing => (Except.ok { session := existing, created := false }, st)
  | none => createSession newSessionId now userId st

/-! ## Message service (`ChatMessageService`) -/

/-- `BLOCKED_STATUSES` from the message service file. -/
def BLOCKED_STATUSES : List Status :=
  [Status.waiting_for_bot, Status.ended, Status.escalated, Status.failed]

/-- The status `switch` of `createNewMessage`: the status-specific
(HTTP code, error code, message) for each blocking status; the `active`
case corresponds to the unreachable `default` branch of the switch. -/
def blockedStatusError : Status → AppError
  | Status.waiting_for_bot =>
    { statusCode := 409, code := "SESSION_WAITING_FOR_BOT",
      message := "Cannot send message: waiting for bot response" }
  | Status.ended =>
    { statusCode := 400, code := "SESSION_ENDED",
      message := "Cannot send message: session has ended" }
  | Status.escalated =>
    { statusCode := 400, code := "SESSION_ESCALATED",
      message := "Cannot send message: session has been escalated to human support" }
  | Status.failed =>
    { statusCode := 400, code := "SESSION_FAILED",
      message := "Cannot send message: session is in a failed state, please try again" }
  | Status.active =>
    { statusCode := 400, code := "SESSION_NOT_ACTIVE",
      message := "Cannot send message: session is not active" }

/-- The 404 error thrown when the session is absent or not owned. -/
def sessionNotFoundError : AppError :=
  { statusCode := 404, code := "SESSION_NOT_FOUND",
    message := "Chat session not found for user" }

/-- The 409 error `createNewMessage` maps a
`unique_session_sequence` violation to. -/
def messageSequenceConflictError : AppError :=
  { statusCode := 409, code := "MESSAGE_SEQUENCE_CONFLICT",
    message := "Please wait for the bot to respond before sending another message" }

/-- The `catch` of `createNewMessage`: a PostgreSQL 23505 error whose
constraint is `unique_session_sequence` becomes
`messageSequenceConflictError`; everything else is rethrown. -/
def mapSequenceConflict (e : Err) : Err :=
  match e with
  | Err.uniqueViolation c =>
    if c = "unique_session_sequence" then Err.app messageSequenceConflictError else e
  | _ => e

/-- Decrypted client-facing message, from `safeChatMessage.type.ts` /
`toSafeChatMessage`: the row with `content_encrypted` replaced by the
decrypted `message` text. -/
structure SafeChatMessage where
  message_id : String
  session_id : String
  user_id : String
  role : Role
  status : MsgStatus
  sequence_number : Nat
  is_deleted : Bool
  created_at : Nat
  message : String
deriving DecidableEq, Repr

/-- `toSafeChatMessage` from `message.util.ts`. -/
def toSafeChatMessage (m : ChatMessage) (decryptField : EncryptedField → String) :
    SafeChatMessage :=
  { message_id := m.message_id, session_id := m.session_id, user_id := m.user_id,
    role := m.role, status := m.status, sequence_number := m.sequence_number,
    is_deleted := m.is_deleted, created_at := m.created_at,
    message := decryptField m.content_encrypted }

/-- Externally observable effects of `createNewMessage`, in order. -/
inductive Event
  | persistedMessage (message_id : String)
  | publishedEvent (topic userId sessionId messageId : String)
  | markedWaitingForBot (session_id : String)
deriving DecidableEq, Repr

/-- The next sequence number computed by `createNewMessage`
(`mostRecentMessage ? mostRecentMessage.sequence_number + 1 : 0`). -/
def computeNextSeq (userId sessionId : String) (st : Store) : Nat :=
  match findLatestMessageBySession userId sessionId st with
  | some m => m.sequence_number + 1
  | none => 0

/-- Result of a message-service call: the returned value or thrown error,
the final store, and the trace of external effects. -/
structure RunResult (α : Type) where
  result : Except Err α
  store : Store
  trace : List Event
deriving Repr

/-- The `try` block of `createNewMessage` (with its `catch`), for an already
computed sequence number: insert the student message, publish the
CHAT_MESSAGE_CREATED event (`publishOk := false` makes the external
publisher throw), flip the session to waiting_for_bot, and return the
decrypted message; errors thrown inside the block pass through
`mapSequenceConflict`.  No step rolls back the steps before it. -/
def createNewMessageTail (decryptField : EncryptedField → String)
    (newMessageId : String) (now : Nat) (publishOk : Bool)
    (userId sessionId : String) (encryptedContent : EncryptedField)
    (nextSequenceNumber : Nat) (st : Store) : RunResult SafeChatMessage :=
  let (entry, st1) := createMessage newMessageId now userId sessionId Role.student
    encryptedContent nextSequenceNumber st
  let tr1 := [Event.persistedMessage entry.message_id]
  if publishOk then
    let tr2 := tr1 ++ [Event.publishedEvent "PUBSUB_CHAT_BOT_TOPIC" userId sessionId
      entry.message_id]
    match markWaitingForBot sessionId userId now st1 with
    | (Except.ok _, st2) =>
      { result := Except.ok (toSafeChatMessage entry decryptField), store := st2,
        trace := tr2 ++ [Event.markedWaitingForBot sessionId] }
    | (Except.error e, st2) =>
      { result := Except.error (mapSequenceConflict e), store := st2, trace := tr2 }
  else
    { result := Except.error (mapSequenceConflict Err.publishError), store := st1,
      trace := tr1 }

/-- `createNewMessage`: load the session (404 when absent), reject blocked
statuses with their status-specific errors, compute the next sequence
number from the most recent non-deleted message, encrypt, then run the
`try` block (`createNewMessageTail`). -/
def createNewMessage (decryptField : EncryptedField → String)
    (encryptField : String → EncryptedField) (newMessageId : String) (now : Nat)
    (publishOk : Bool) (userId sessionId content : String) (st : Store) :
    RunResult SafeChatMessage :=
  match findSessionById sessionId userId st with
  | none =>
    { result := Except.error (Err.app sessionNotFoundError), store := st, trace := [] }
  | some session =>
    if session.status ∈ BLOCKED_STATUSES then
      { result := Except.error (Err.app (blockedStatusError session.status)),
        store := st, trace := [] }
    else
      createNewMessageTail decryptField newMessageId now publishOk userId sessionId
        (encryptField content) (computeNextSeq userId sessionId st) st

/-- The reference user message of `getBotResponse`: the caller-supplied
`latestUserMessageId` when it resolves in this session, otherwise the most
recent non-deleted student message. -/
def referenceUserMessage (userId sessionId : String)
    (latestUserMessageId : Option String) (st : Store) : Option ChatMessage :=
  let userMessage0 : Option ChatMessage :=
    match latestUserMessageId with
    | some mid => findMessageById sessionId mid userId st
    | none => none
  match userMessage0 with
  | some m => some m
  | none => findLatestUserMessageBySession userId sessionId st

/-- `getBotResponse`: returns `none` when the session is absent, when its
status is outside {waiting_for_bot, active}, when no reference user message
exists, when no bot message exists, or when the latest bot message is not
strictly newer (by sequence number) than the reference message; otherwise
flips the session back to active via `markActive` and returns the decrypted
latest bot message.  An error thrown by `markActive` propagates. -/
def getBotResponse (decryptField : EncryptedField → String)
    (userId sessionId : String) (latestUserMessageId : Option String) (now : Nat)
    (st : Store) : Except Err (Option SafeChatMessage) × Store :=
  match findSessionById sessionId userId st with
  | none => (Except.ok none, st)
  | some session =>
    if session.status ∈ [Status.waiting_for_bot, Status.active] then
      match referenceUserMessage userId sessionId latestUserMessageId st with
      | none => (Except.ok none, st)
      | some um =>
        match findLatestBotMessageBySession userId sessionId st with
        | none => (Except.ok none, st)
        | some bm =>
          if bm.sequence_number ≤ um.sequence_number then (Except.ok none, st)
          else
            match markActive sessionId userId now st with
            | (Except.ok _, st') =>
              (Except.ok (some (toSafeChatMessage bm decryptField)), st')
            | (Except.error e, st') => (Except.error e, st')
    else (Except.ok none, st)

/-! ## Test fixtures: a concrete codec (the codec is an external collaborator
passed in as a function) and concrete rows used by witnesses and
counterexamples. -/

/-- Concrete decryption function for witnesses. -/
def testDecrypt (f : EncryptedField) : String := f.content

/-- Concrete encryption function for witnesses. -/
def testEncrypt (s : String) : EncryptedField :=
  { iv := "iv", content := s, tag := "tag" }

/-- An active session of user u1. -/
def sessionActive : ChatSession :=
  { session_id := "s1", user_id := "u1", status := Status.active,
    insight_id := none, created_at := 0, updated_at := 0, version := 1 }

/-- The same session while waiting for the bot. -/
def sessionWfb : ChatSession := { sessionActive with status := Status.waiting_for_bot }

/-- The same session ended. -/
def sessionEnded : ChatSession := { sessionActive with status := Status.ended }

/-- A student message with sequence number 0. -/
def userMsg0 : ChatMessage :=
  { message_id := "m0", session_id := "s1", user_id := "u1", role := Role.student,
    content_encrypted := testEncrypt "hi", status := MsgStatus.pending,
    sequence_number := 0, is_deleted := false, created_at := 0 }

/-- A bot message with sequence number 1, newer than `userMsg0`. -/
def botMsg1 : ChatMessage :=
  { message_id := "mb1", session_id := "s1", user_id := "u1", role := Role.bot,
    content_encrypted := testEncrypt "hello there", status := MsgStatus.pending,
    sequence_number := 1, is_deleted := false, created_at := 1 }

/-- Store with an already-active session holding a fresh bot reply. -/
def storeActiveWithReply : Store :=
  { sessions := [sessionActive], messages := [userMsg0, botMsg1] }

/-- Store with a waiting_for_bot session holding a fresh bot reply. -/
def storeWfbWithReply : Store :=
  { sessions := [sessionWfb], messages := [userMsg0, botMsg1] }

/-! ## Claims -/

/-- C5, counterexample: with the session already `active` and a genuine new
bot reply present (bot sequence 1 > user sequence 0), `getBotResponse` does
not succeed and does not return the bot message: `markActive` rejects the
active-to-active edge (it is not in `ALLOWED_TRANSITIONS`), so the call
throws INVALID_STATUS_TRANSITION — the transition to active is not an
idempotent no-op. -/
theorem C5_counterexample :
    getBotResponse testDecrypt "u1" "s1" none 5 storeActiveWithReply =
      (Except.error (Err.app (invalidTransitionError Status.active Status.active)),
        storeActiveWithReply) ∧
    (getBotResponse testDecrypt "u1" "s1" none 5 storeActiveWithReply).1.isOk = false := by
  constructor
  · decide
  · decide

/-- C5 (amended): when a genuine new reply exists (latest bot message strictly
newer than the reference user message) and the session status is
`waiting_for_bot`, `getBotResponse` flips the session back to `active` and
returns the decrypted bot message; but when the status is already `active`,
the transition is not an idempotent no-op: `markActive` throws
INVALID_STATUS_TRANSITION (active is not in `ALLOWED_TRANSITIONS active`)
and the call fails instead of returning the bot message. -/
theorem C5_reply_flips_waiting_to_active
    (dec : EncryptedField → String) (uid sid : String) (lumid : Option String)
    (now : Nat) (st : Store) (sess : ChatSession) (um bm : ChatMessage)
    (hfind : findSessionById sid uid st = some sess)
    (hpk : st.sessions.find? (fun s => decide (s.session_id = sid)) = some sess)
    (href : referenceUserMessage uid sid lumid st = some um)
    (hbot : findLatestBotMessageBySession uid sid st = some bm)
    (hlt : um.sequence_number < bm.sequence_number) :
    (sess.status = Status.waiting_for_bot →
      getBotResponse dec uid sid lumid now st =
        (Except.ok (some (toSafeChatMessage bm dec)),
          { st with sessions := st.sessions.map (fun s =>
              if s.session_id = sid then
                bumpVersion { sess with status := Status.active } now else s) })) ∧
    (sess.status = Status.active →
      getBotResponse dec uid sid lumid now st =
        (Except.error (Err.app (invalidTransitionError Status.active Status.active)),
          st)) := by
  have hsid : sess.session_id = sid := by
    have := List.find?_some hfind
    exact (of_decide_eq_true this).1
  have hnle : ¬ bm.sequence_number ≤ um.sequence_number := by omega
  constructor
  · intro hwfb
    simp only [getBotResponse, hfind, href, hbot, hwfb, markActive, markStatus,
      updateSession, hsid, hpk, hnle]
    simp [ALLOWED_TRANSITIONS]
  · intro hact
    simp only [getBotResponse, hfind, href, hbot, hact, markActive, markStatus, hnle]
    simp [ALLOWED_TRANSITIONS]

/-- C5, witness: at a concrete store with a waiting_for_bot session, a user
message (sequence 0) and a newer bot message (sequence 1), the hypotheses of
`C5_reply_flips_waiting_to_active` hold and the call returns the decrypted
bot message while flipping the session to active. -/
theorem C5_reply_flips_waiting_to_active_witness :
    findSessionById "s1" "u1" storeWfbWithReply = some sessionWfb ∧
    referenceUserMessage "u1" "s1" none storeWfbWithReply = some userMsg0 ∧
    findLatestBotMessageBySession "u1" "s1" storeWfbWithReply = some botMsg1 ∧
    userMsg0.sequence_number < botMsg1.sequence_number ∧
    getBotResponse testDecrypt "u1" "s1" none 5 storeWfbWithReply =
      (Except.ok (some (toSafeChatMessage botMsg1 testDecrypt)),
        { storeWfbWithReply with sessions := storeWfbWithReply.sessions.map (fun s =>
            if s.session_id = "s1" then
              bumpVersion { sessionWfb with status := Status.active } 5 else s) }) :=
  ⟨by decide, by decide, by decide, by decide,
    (C5_reply_flips_waiting_to_active testDecrypt "u1" "s1" none 5 storeWfbWithReply
      sessionWfb userMsg0 botMsg1 (by decide) (by decide) (by decide) (by decide)
      (by decide)).1 rfl⟩

/-- C6: for a user with no in-progress session, `getOrCreateActiveSession`
returns `created := true` exactly once: the first call creates the session
(an `active` row); a second sequential call finds it and returns the same
session with `created := false`; and a concurrent duplicate whose insert
loses the uniqueness race (`createSession` invoked after the first call
committed, its pre-check having seen the old store) hits the
`idx_one_active_session_per_user` violation and transparently re-fetches
the same session with `created := false` instead of failing. -/
theorem C6_get_or_create_idempotent (uid nid1 nid2 : String) (now1 now2 : Nat)
    (st : Store) (h : st.sessions.any (inProgressOf uid) = false) :
    getOrCreateActiveSession nid1 now1 uid st =
      (Except.ok { session := newSessionRow nid1 now1 uid, created := true },
        { st with sessions := st.sessions ++ [newSessionRow nid1 now1 uid] }) ∧
    getOrCreateActiveSession nid2 now2 uid
        { st with sessions := st.sessions ++ [newSessionRow nid1 now1 uid] } =
      (Except.ok { session := newSessionRow nid1 now1 uid, created := false },
        { st with sessions := st.sessions ++ [newSessionRow nid1 now1 uid] }) ∧
    createSession nid2 now2 uid
        { st with sessions := st.sessions ++ [newSessionRow nid1 now1 uid] } =
      (Except.ok { session := newSessionRow nid1 now1 uid, created := false },
        { st with sessions := st.sessions ++ [newSessionRow nid1 now1 uid] }) := by
  have hentry : inProgressOf uid (newSessionRow nid1 now1 uid) = true := by
    simp [inProgressOf, newSessionRow, inProgress]
  have hfilter : st.sessions.filter (inProgressOf uid) = [] := by
    rw [List.filter_eq_nil_iff]
    intro a ha
    exact List.any_eq_false.mp h a ha
  have hlatest1 : findLatestUserSession uid st = none := by
    rw [findLatestUserSession, hfilter]; rfl
  have hlatest2 : findLatestUserSession uid
      { st with sessions := st.sessions ++ [newSessionRow nid1 now1 uid] }
        = some (newSessionRow nid1 now1 uid) := by
    rw [findLatestUserSession]
    show latestSessionByCreatedAt
      ((st.sessions ++ [newSessionRow nid1 now1 uid]).filter (inProgressOf uid)) = _
    rw [List.filter_append, hfilter, List.nil_append]
    simp [List.filter_cons, hentry, latestSessionByCreatedAt]
  refine ⟨?_, ?_, ?_⟩
  · simp only [getOrCreateActiveSession, hlatest1, createSession, saveNewSession, h]
    simp
  · simp only [getOrCreateActiveSession, hlatest2]
  · have hany : (st.sessions ++ [newSessionRow nid1 now1 uid]).any
        (inProgressOf uid) = true := by
      rw [List.any_append]
      simp [hentry]
    have hc : strContains "idx_one_active_session_per_user" "active_session" = true :=
      by decide
    simp only [createSession, saveNewSession, hany, if_true, hc, hlatest2]

/-- C6, witness: starting from the empty store, the first call creates the
session (created true), the second sequential call and the raced
`createSession` both return the same session with created false. -/
theorem C6_get_or_create_idempotent_witness :
    (Store.mk [] []).sessions.any (inProgressOf "u9") = false ∧
    (getOrCreateActiveSession "n1" 3 "u9" (Store.mk [] []) =
      (Except.ok { session := newSessionRow "n1" 3 "u9", created := true },
        { Store.mk [] [] with sessions := [] ++ [newSessionRow "n1" 3 "u9"] }) ∧
    getOrCreateActiveSession "n2" 4 "u9"
        { Store.mk [] [] with sessions := [] ++ [newSessionRow "n1" 3 "u9"] } =
      (Except.ok { session := newSessionRow "n1" 3 "u9", created := false },
        { Store.mk [] [] with sessions := [] ++ [newSessionRow "n1" 3 "u9"] }) ∧
    createSession "n2" 4 "u9"
        { Store.mk [] [] with sessions := [] ++ [newSessionRow "n1" 3 "u9"] } =
      (Except.ok { session := newSessionRow "n1" 3 "u9", created := false },
        { Store.mk [] [] with sessions := [] ++ [newSessionRow "n1" 3 "u9"] })) :=
  ⟨by decide, C6_get_or_create_idempotent "u9" "n1" "n2" 3 4 (Store.mk [] [])
    (by decide)⟩

/-- Optimistic saves never touch the messages table. -/
theorem updateSession_messages (cs : ChatSession) (now : Nat) (st : Store) :
    ((updateSession cs now st).2).messages = st.messages := by
  unfold updateSession
  split
  · rfl
  · split <;> rfl

/-- The mark* operations never touch the messages table. -/
theorem markStatus_messages (tgt : Status) (sid uid : String) (now : Nat)
    (st : Store) : ((markStatus tgt sid uid now st).2).messages = st.messages := by
  rcases hfs : findSessionById sid uid st with _ | sess
  · simp [markStatus, hfs]
  · by_cases hmem : tgt ∈ ALLOWED_TRANSITIONS sess.status
    · rcases hu : updateSession { sess with status := tgt } now st with ⟨r, st'⟩
      have h2 := updateSession_messages { sess with status := tgt } now st
      rw [hu] at h2
      cases r <;> simp [markStatus, hfs, hmem, hu] <;> exact h2
    · simp [markStatus, hfs, hmem]

/-- Whatever happens after the insert, the `try` block of `createNewMessage`
appends exactly the freshly created student row to the messages table. -/
theorem createNewMessageTail_messages (dec : EncryptedField → String)
    (nid : String) (now : Nat) (pub : Bool) (uid sid : String)
    (ef : EncryptedField) (n : Nat) (st : Store) :
    (createNewMessageTail dec nid now pub uid sid ef n st).store.messages =
      st.messages ++ [(createMessage nid now uid sid Role.student ef n st).1] := by
  unfold createNewMessageTail
  cases pub with
  | false => simp [createMessage]
  | true =>
    simp only [if_true]
    rcases hu : markWaitingForBot sid uid now
        (createMessage nid now uid sid Role.student ef n st).2 with ⟨r, st2⟩
    have hm : st2.messages = st.messages ++
        [(createMessage nid now uid sid Role.student ef n st).1] := by
      have h2 := markStatus_messages Status.waiting_for_bot sid uid now
        (createMessage nid now uid sid Role.student ef n st).2
      rw [show markStatus Status.waiting_for_bot sid uid now
          (createMessage nid now uid sid Role.student ef n st).2 =
          markWaitingForBot sid uid now
            (createMessage nid now uid sid Role.student ef n st).2 from rfl,
        hu] at h2
      simpa [createMessage] using h2
    cases r <;> simp [hu, hm, createMessage]

/-- C8: `createNewMessage` on a session whose status is in the blocked set
{waiting_for_bot, ended, escalated, failed} rejects without inserting a
message (store unchanged, no events), with a status-specific error:
SESSION_WAITING_FOR_BOT carries HTTP 409 and the other three carry their own
codes; the four client-facing codes are pairwise distinct; and only an
`active` session accepts the message (exactly one student row is appended). -/
theorem C8_blocked_statuses_distinct_errors (dec : EncryptedField → String)
    (enc : String → EncryptedField) (nid : String) (now : Nat) (pub : Bool)
    (uid sid content : String) (st : Store) (sess : ChatSession)
    (hfind : findSessionById sid uid st = some sess) :
    (sess.status = Status.waiting_for_bot →
      createNewMessage dec enc nid now pub uid sid content st =
        ⟨Except.error (Err.app (blockedStatusError Status.waiting_for_bot)), st, []⟩) ∧
    (sess.status = Status.ended →
      createNewMessage dec enc nid now pub uid sid content st =
        ⟨Except.error (Err.app (blockedStatusError Status.ended)), st, []⟩) ∧
    (sess.status = Status.escalated →
      createNewMessage dec enc nid now pub uid sid content st =
        ⟨Except.error (Err.app (blockedStatusError Status.escalated)), st, []⟩) ∧
    (sess.status = Status.failed →
      createNewMessage dec enc nid now pub uid sid content st =
        ⟨Except.error (Err.app (blockedStatusError Status.failed)), st, []⟩) ∧
    (BLOCKED_STATUSES.map (fun s => ((blockedStatusError s).statusCode,
        (blockedStatusError s).code)) =
      [(409, "SESSION_WAITING_FOR_BOT"), (400, "SESSION_ENDED"),
        (400, "SESSION_ESCALATED"), (400, "SESSION_FAILED")]) ∧
    (BLOCKED_STATUSES.map (fun s => (blockedStatusError s).code)).Nodup ∧
    (sess.status = Status.active →
      (createNewMessage dec enc nid now pub uid sid content st).store.messages =
        st.messages ++ [(createMessage nid now uid sid Role.student (enc content)
          (computeNextSeq uid sid st) st).1]) := by
  refine ⟨?_, ?_, ?_, ?_, by decide, by decide, ?_⟩
  · intro hs
    simp [createNewMessage, hfind, hs, BLOCKED_STATUSES]
  · intro hs
    simp [createNewMessage, hfind, hs, BLOCKED_STATUSES]
  · intro hs
    simp [createNewMessage, hfind, hs, BLOCKED_STATUSES]
  · intro hs
    simp [createNewMessage, hfind, hs, BLOCKED_STATUSES]
  · intro hs
    have hnb : sess.status ∉ BLOCKED_STATUSES := by
      rw [hs]; decide
    simp only [createNewMessage, hfind, hnb, if_false]
    exact createNewMessageTail_messages dec nid now pub uid sid (enc content)
      (computeNextSeq uid sid st) st

/-- C8, witness: at a store whose session is waiting_for_bot, the hypotheses
of `C8_blocked_statuses_distinct_errors` hold; instantiating it shows the
waiting_for_bot rejection with code SESSION_WAITING_FOR_BOT and HTTP 409. -/
theorem C8_blocked_statuses_distinct_errors_witness :
    findSessionById "s1" "u1" (Store.mk [sessionWfb] []) = some sessionWfb ∧
    createNewMessage testDecrypt testEncrypt "m1" 1 true "u1" "s1" "hello"
        (Store.mk [sessionWfb] []) =
      ⟨Except.error (Err.app (blockedStatusError Status.waiting_for_bot)),
        Store.mk [sessionWfb] [], []⟩ :=
  ⟨by decide,
    (C8_blocked_statuses_distinct_errors testDecrypt testEncrypt "m1" 1 true "u1" "s1"
      "hello" (Store.mk [sessionWfb] []) sessionWfb (by decide)).1 rfl⟩

/-- Store holding one fresh active session and no messages. -/
def storeFreshActive : Store := { sessions := [sessionActive], messages := [] }

/-- Whether an event is the flip of the session to waiting_for_bot. -/
def eventIsFlip : Event → Bool
  | Event.markedWaitingForBot _ => true
  | _ => false

/-- Whether an event is the publish to the bot-worker topic. -/
def eventIsPublish : Event → Bool
  | Event.publishedEvent _ _ _ _ => true
  | _ => false

/-- Whether, in a trace, the session flip occurs strictly before the worker
event publish. -/
def flipBeforePublish (tr : List Event) : Bool :=
  match tr.findIdx? eventIsFlip, tr.findIdx? eventIsPublish with
  | some i, some j => decide (i < j)
  | _, _ => false

/-- C9, counterexample: on a successful `createNewMessage` run the effect
trace is persist, then publish, then flip to waiting_for_bot — the worker
event is emitted BEFORE the session is flipped, not after, so the claimed
order (persist, flip, emit) does not hold. -/
theorem C9_counterexample :
    (createNewMessage testDecrypt testEncrypt "m1" 1 true "u1" "s1" "hello"
        storeFreshActive).trace =
      [Event.persistedMessage "m1",
        Event.publishedEvent "PUBSUB_CHAT_BOT_TOPIC" "u1" "s1" "m1",
        Event.markedWaitingForBot "s1"] ∧
    flipBeforePublish (createNewMessage testDecrypt testEncrypt "m1" 1 true "u1" "s1"
      "hello" storeFreshActive).trace = false ∧
    (createNewMessage testDecrypt testEncrypt "m1" 1 true "u1" "s1" "hello"
      storeFreshActive).result.isOk = true :=
  ⟨by decide, by decide, by decide⟩

/-- C9 (amended): on a successful `createNewMessage` the order of effects is
persist message, then emit the worker event (carrying user id, session id
and message id), then flip the session to waiting_for_bot; and when the
publish fails, the already-stored message is not rolled back (it stays in
the store), the flip never happens, and the publish error surfaces. -/
theorem C9_persist_publish_flip_order (dec : EncryptedField → String)
    (enc : String → EncryptedField) (nid : String) (now : Nat)
    (uid sid content : String) (st : Store) (sess : ChatSession)
    (hfind : findSessionById sid uid st = some sess)
    (hpk : st.sessions.find? (fun s => decide (s.session_id = sid)) = some sess)
    (hact : sess.status = Status.active) :
    (createNewMessage dec enc nid now true uid sid content st).trace =
      [Event.persistedMessage nid,
        Event.publishedEvent "PUBSUB_CHAT_BOT_TOPIC" uid sid nid,
        Event.markedWaitingForBot sid] ∧
    (createNewMessage dec enc nid now false uid sid content st).result =
      Except.error Err.publishError ∧
    (createNewMessage dec enc nid now false uid sid content st).store.messages =
      st.messages ++ [(createMessage nid now uid sid Role.student (enc content)
        (computeNextSeq uid sid st) st).1] ∧
    (createNewMessage dec enc nid now false uid sid content st).trace =
      [Event.persistedMessage nid] := by
  have hsid : sess.session_id = sid := by
    have := List.find?_some hfind
    exact (of_decide_eq_true this).1
  have hfind' : List.find? (fun s => decide (s.session_id = sid ∧ s.user_id = uid))
      st.sessions = some sess := hfind
  refine ⟨?_, ?_, ?_, ?_⟩
  · simp only [createNewMessage, findSessionById, hfind', hact, createNewMessageTail,
      createMessage, markWaitingForBot, markStatus, updateSession, hsid, hpk]
    simp [BLOCKED_STATUSES, ALLOWED_TRANSITIONS]
  · simp only [createNewMessage, findSessionById, hfind', hact, createNewMessageTail,
      createMessage, mapSequenceConflict]
    simp [BLOCKED_STATUSES]
  · simp only [createNewMessage, findSessionById, hfind', hact, createNewMessageTail,
      createMessage, mapSequenceConflict]
    simp [BLOCKED_STATUSES]
  · simp only [createNewMessage, findSessionById, hfind', hact, createNewMessageTail,
      createMessage, mapSequenceConflict]
    simp [BLOCKED_STATUSES]

/-- C9, witness: with a fresh active session, the hypotheses of
`C9_persist_publish_flip_order` hold and the run produces the
persist-publish-flip trace; with a failing publisher the stored message
survives. -/
theorem C9_persist_publish_flip_order_witness :
    findSessionById "s1" "u1" storeFreshActive = some sessionActive ∧
    sessionActive.status = Status.active ∧
    ((createNewMessage testDecrypt testEncrypt "m1" 1 true "u1" "s1" "hello"
        storeFreshActive).trace =
      [Event.persistedMessage "m1",
        Event.publishedEvent "PUBSUB_CHAT_BOT_TOPIC" "u1" "s1" "m1",
        Event.markedWaitingForBot "s1"] ∧
    (createNewMessage testDecrypt testEncrypt "m1" 1 false "u1" "s1" "hello"
        storeFreshActive).result = Except.error Err.publishError ∧
    (createNewMessage testDecrypt testEncrypt "m1" 1 false "u1" "s1" "hello"
        storeFreshActive).store.messages =
      storeFreshActive.messages ++ [(createMessage "m1" 1 "u1" "s1" Role.student
        (testEncrypt "hello") (computeNextSeq "u1" "s1" storeFreshActive)
        storeFreshActive).1] ∧
    (createNewMessage testDecrypt testEncrypt "m1" 1 false "u1" "s1" "hello"
        storeFreshActive).trace = [Event.persistedMessage "m1"]) :=
  ⟨by decide, rfl,
    C9_persist_publish_flip_order testDecrypt testEncrypt "m1" 1 "u1" "s1" "hello"
      storeFreshActive sessionActive (by decide) (by decide) rfl⟩

/-- C2: whenever `getBotResponse` returns a bot message, that message is the
latest bot message of the session, it is returned decrypted, and its
sequence number is strictly greater than the sequence number of the
reference user message (the caller-supplied message if it resolves,
otherwise the latest student message) — no stale replies. -/
theorem C2_no_stale_bot_reply (dec : EncryptedField → String) (uid sid : String)
    (lumid : Option String) (now : Nat) (st : Store) :
    (∀ (m : SafeChatMessage) (stOut : Store),
      getBotResponse dec uid sid lumid now st = (Except.ok (some m), stOut) →
      ∃ bm um, findLatestBotMessageBySession uid sid st = some bm ∧
        referenceUserMessage uid sid lumid st = some um ∧
        m = toSafeChatMessage bm dec ∧
        um.sequence_number < bm.sequence_number) ∧
    (∀ (sess : ChatSession) (um bm : ChatMessage),
      findSessionById sid uid st = some sess →
      sess.status ∈ [Status.waiting_for_bot, Status.active] →
      referenceUserMessage uid sid lumid st = some um →
      findLatestBotMessageBySession uid sid st = some bm →
      bm.sequence_number ≤ um.sequence_number →
      getBotResponse dec uid sid lumid now st = (Except.ok none, st)) ∧
    (∀ (sess : ChatSession) (um : ChatMessage),
      findSessionById sid uid st = some sess →
      sess.status ∈ [Status.waiting_for_bot, Status.active] →
      referenceUserMessage uid sid lumid st = some um →
      findLatestBotMessageBySession uid sid st = none →
      getBotResponse dec uid sid lumid now st = (Except.ok none, st)) ∧
    (∀ (sess : ChatSession),
      findSessionById sid uid st = some sess →
      sess.status ∈ [Status.waiting_for_bot, Status.active] →
      referenceUserMessage uid sid lumid st = none →
      getBotResponse dec uid sid lumid now st = (Except.ok none, st)) := by
  refine ⟨?_, ?_, ?_, ?_⟩
  case refine_2 =>
    intro sess um bm hfind hmem href hbot hle
    simp only [getBotResponse, hfind, href, hbot, hmem, if_pos, if_true, hle,
      ite_true]
  case refine_3 =>
    intro sess um hfind hmem href hbot
    simp only [getBotResponse, hfind, href, hbot, hmem, if_pos, if_true]
  case refine_4 =>
    intro sess hfind hmem href
    simp only [getBotResponse, hfind, href, hmem, if_pos, if_true]
  intro m stOut h
  unfold getBotResponse at h
  rcases hfs : findSessionById sid uid st with _ | sess
  · rw [hfs] at h
    simp at h
  · rw [hfs] at h
    dsimp only at h
    by_cases hmem : sess.status ∈ [Status.waiting_for_bot, Status.active]
    · rw [if_pos hmem] at h
      rcases href : referenceUserMessage uid sid lumid st with _ | um
      · rw [href] at h
        simp at h
      · rw [href] at h
        dsimp only at h
        rcases hbot : findLatestBotMessageBySession uid sid st with _ | bm
        · rw [hbot] at h
          simp at h
        · rw [hbot] at h
          dsimp only at h
          by_cases hle : bm.sequence_number ≤ um.sequence_number
          · rw [if_pos hle] at h
            simp at h
          · rw [if_neg hle] at h
            rcases hma : markActive sid uid now st with ⟨r, st'⟩
            rw [hma] at h
            cases r with
            | ok u =>
              simp only [Prod.mk.injEq, Except.ok.injEq, Option.some.injEq] at h
              exact ⟨bm, um, rfl, rfl, h.1.symm, by omega⟩
            | error e => simp at h
    · rw [if_neg hmem] at h
      simp at h

/-- C2, witness: at a concrete store (waiting_for_bot session, student
message of sequence 0, bot message of sequence 1) `getBotResponse` returns
the decrypted bot message, and the theorem yields its strict-freshness
certificate. -/
theorem C2_no_stale_bot_reply_witness :
    getBotResponse testDecrypt "u1" "s1" none 5 storeWfbWithReply =
      (Except.ok (some (toSafeChatMessage botMsg1 testDecrypt)),
        Store.mk [{ sessionActive with updated_at := 5, version := 2 }]
          [userMsg0, botMsg1]) ∧
    (∃ bm um, findLatestBotMessageBySession "u1" "s1" storeWfbWithReply = some bm ∧
      referenceUserMessage "u1" "s1" none storeWfbWithReply = some um ∧
      toSafeChatMessage botMsg1 testDecrypt = toSafeChatMessage bm testDecrypt ∧
      um.sequence_number < bm.sequence_number) :=
  ⟨by decide,
    (C2_no_stale_bot_reply testDecrypt "u1" "s1" none 5 storeWfbWithReply).1
      (toSafeChatMessage botMsg1 testDecrypt)
      (Store.mk [{ sessionActive with updated_at := 5, version := 2 }]
        [userMsg0, botMsg1]) (by decide)⟩

/-- Modelled from the spec: the transition table of spec section 4.1,
written from the table rows, to be compared with the `ALLOWED_TRANSITIONS`
of the source. -/
def spec41Transitions : Status → List Status
  | Status.active => [Status.ended, Status.waiting_for_bot, Status.escalated]
  | Status.waiting_for_bot =>
      [Status.active, Status.ended, Status.escalated, Status.failed]
  | Status.failed => [Status.active, Status.ended, Status.escalated]
  | Status.escalated => []
  | Status.ended => []

/-- C3: every transition operation (markActive, markWaitingForBot,
markEscalated, markCloseSession) applied to a session whose (status, target)
edge is not in the table fails with INVALID_STATUS_TRANSITION and leaves the
store unchanged; the table gives no outgoing edges to `ended` or `escalated`
(terminal); and the source table coincides with the spec section 4.1 table,
so exactly the pairs missing from that table are rejected. -/
theorem C3_invalid_transitions_always_rejected (st : Store) (sess : ChatSession)
    (sid uid : String) (now : Nat)
    (hfind : findSessionById sid uid st = some sess) :
    (Status.active ∉ ALLOWED_TRANSITIONS sess.status →
      markActive sid uid now st =
        (Except.error (Err.app (invalidTransitionError sess.status Status.active)),
          st)) ∧
    (Status.waiting_for_bot ∉ ALLOWED_TRANSITIONS sess.status →
      markWaitingForBot sid uid now st =
        (Except.error (Err.app (invalidTransitionError sess.status
          Status.waiting_for_bot)), st)) ∧
    (Status.escalated ∉ ALLOWED_TRANSITIONS sess.status →
      markEscalated sid uid now st =
        (Except.error (Err.app (invalidTransitionError sess.status
          Status.escalated)), st)) ∧
    (Status.ended ∉ ALLOWED_TRANSITIONS sess.status →
      markCloseSession sid uid now st =
        (Except.error (Err.app (invalidTransitionError sess.status Status.ended)),
          st)) ∧
    ALLOWED_TRANSITIONS Status.ended = [] ∧
    ALLOWED_TRANSITIONS Status.escalated = [] ∧
    (∀ s, spec41Transitions s = ALLOWED_TRANSITIONS s) := by
  have key : ∀ tgt : Status, tgt ∉ ALLOWED_TRANSITIONS sess.status →
      markStatus tgt sid uid now st =
        (Except.error (Err.app (invalidTransitionError sess.status tgt)), st) := by
    intro tgt h
    simp [markStatus, hfind, h]
  exact ⟨key Status.active, key Status.waiting_for_bot, key Status.escalated,
    key Status.ended, rfl, rfl, fun s => by cases s <;> rfl⟩

/-- C3, witness: for an `ended` (terminal) session every one of the four
operations fails with INVALID_STATUS_TRANSITION and the store is unchanged. -/
theorem C3_invalid_transitions_always_rejected_witness :
    findSessionById "s1" "u1" (Store.mk [sessionEnded] []) = some sessionEnded ∧
    Status.active ∉ ALLOWED_TRANSITIONS sessionEnded.status ∧
    markActive "s1" "u1" 7 (Store.mk [sessionEnded] []) =
      (Except.error (Err.app (invalidTransitionError sessionEnded.status
        Status.active)), Store.mk [sessionEnded] []) ∧
    markCloseSession "s1" "u1" 7 (Store.mk [sessionEnded] []) =
      (Except.error (Err.app (invalidTransitionError sessionEnded.status
        Status.ended)), Store.mk [sessionEnded] []) :=
  ⟨by decide, by decide,
    (C3_invalid_transitions_always_rejected (Store.mk [sessionEnded] [])
      sessionEnded "s1" "u1" 7 (by decide)).1 (by decide),
    (C3_invalid_transitions_always_rejected (Store.mk [sessionEnded] [])
      sessionEnded "s1" "u1" 7 (by decide)).2.2.2.1 (by decide)⟩

/-- The retry loop consults the oracle only at attempts in the window
`[attempt, attempt + fuel)`. -/
theorem markStatusRetryGo_congr (tgt : Status) (o1 o2 : Nat → AttemptView)
    (maxR : Nat) : ∀ (fuel attempt : Nat),
    (∀ i, attempt ≤ i → i < attempt + fuel → o1 i = o2 i) →
    markStatusRetryGo tgt o1 maxR attempt fuel =
      markStatusRetryGo tgt o2 maxR attempt fuel
  | 0, _, _ => rfl
  | fuel + 1, attempt, h => by
    have ha : o1 attempt = o2 attempt := h attempt (Nat.le_refl _) (by omega)
    have hrec := markStatusRetryGo_congr tgt o1 o2 maxR fuel (attempt + 1)
      (fun i h1 h2 => h i (by omega) (by omega))
    simp only [markStatusRetryGo, ha, hrec]

/-- An oracle on which every attempt reads a waiting_for_bot session and
then hits a version conflict. -/
def conflictOracle : Nat → AttemptView :=
  fun i => ⟨some sessionWfb, true, i⟩

/-- C7: the transition retry loop is bounded by its fixed `maxRetries = 3`:
(1) the outcome depends only on the first three attempts, so at most three
attempts (two retries after the first) are ever made; (2) when every attempt
reads a session whose transition is legal and then hits an optimistic-lock
version conflict, the loop stops after the third attempt and surfaces the
conflict error instead of looping; (3) the session is re-read and
re-validated against `ALLOWED_TRANSITIONS` on each attempt — a first-attempt
conflict followed by a second read whose status forbids the transition
yields INVALID_STATUS_TRANSITION for the freshly read status. -/
theorem C7_retry_bounded :
    (∀ (tgt : Status) (o1 o2 : Nat → AttemptView),
      (∀ i, i < 3 → o1 i = o2 i) →
      markStatusRetry tgt o1 3 = markStatusRetry tgt o2 3) ∧
    (∀ (tgt : Status) (o : Nat → AttemptView),
      (∀ i, i < 3 → (o i).conflicts = true ∧
        ∃ s, (o i).found = some s ∧ tgt ∈ ALLOWED_TRANSITIONS s.status) →
      markStatusRetry tgt o 3 = Except.error Err.optimisticLock) ∧
    (∀ (tgt : Status) (o : Nat → AttemptView) (s1 : ChatSession),
      (o 0).conflicts = true →
      (∃ s0, (o 0).found = some s0 ∧ tgt ∈ ALLOWED_TRANSITIONS s0.status) →
      (o 1).found = some s1 →
      tgt ∉ ALLOWED_TRANSITIONS s1.status →
      markStatusRetry tgt o 3 =
        Except.error (Err.app (invalidTransitionError s1.status tgt))) := by
  refine ⟨?_, ?_, ?_⟩
  · intro tgt o1 o2 h
    exact markStatusRetryGo_congr tgt o1 o2 3 3 0 (fun i h1 h2 => h i (by omega))
  · intro tgt o h
    obtain ⟨c0, s0, f0, a0⟩ := h 0 (by omega)
    obtain ⟨c1, s1, f1, a1⟩ := h 1 (by omega)
    obtain ⟨c2, s2, f2, a2⟩ := h 2 (by omega)
    simp [markStatusRetry, markStatusRetryGo, f0, c0, a0, f1, c1, a1, f2, c2, a2]
  · intro tgt o s1 c0 hs0 f1 hnot
    obtain ⟨s0, f0, a0⟩ := hs0
    simp [markStatusRetry, markStatusRetryGo, f0, c0, a0, f1, hnot]

/-- C7, witness: with an oracle that always reads a waiting_for_bot session
and always conflicts, marking active surfaces the optimistic-lock conflict
after the bounded retries. -/
theorem C7_retry_bounded_witness :
    markStatusRetry Status.active conflictOracle 3 =
      Except.error Err.optimisticLock :=
  C7_retry_bounded.2.1 Status.active conflictOracle
    (fun _ _ => ⟨rfl, sessionWfb, rfl, by decide⟩)

/-- Whether a `createNewMessage` outcome is the MESSAGE_SEQUENCE_CONFLICT
(HTTP 409) rejection. -/
def isSequenceConflictResult (r : Except Err SafeChatMessage) : Bool :=
  match r with
  | Except.error (Err.app e) => decide (e = messageSequenceConflictError)
  | _ => false

/-- The INVALID_STATUS_TRANSITION error is never the sequence-conflict
error (their codes differ). -/
theorem invalidTransition_ne_seqConflict (src tgt : Status) :
    invalidTransitionError src tgt ≠ messageSequenceConflictError := by
  intro h
  have hc : (invalidTransitionError src tgt).code =
      messageSequenceConflictError.code := by rw [h]
  simp [invalidTransitionError, messageSequenceConflictError] at hc

/-- App errors distinct from the sequence-conflict error are not classified
as a sequence conflict. -/
theorem isSequenceConflictResult_app (e : AppError)
    (h : e ≠ messageSequenceConflictError) :
    isSequenceConflictResult (Except.error (Err.app e)) = false := by
  simp [isSequenceConflictResult]
  exact h

/-- Optimistic saves only ever throw the optimistic-lock error. -/
theorem updateSession_error_shape (cs : ChatSession) (now : Nat) (st : Store)
    (e : Err) (h : (updateSession cs now st).1 = Except.error e) :
    e = Err.optimisticLock := by
  unfold updateSession at h
  rcases hfs : st.sessions.find? (fun s => decide (s.session_id = cs.session_id))
      with _ | stored
  · rw [hfs] at h
    dsimp only at h
    injection h with h
    exact h.symm
  · rw [hfs] at h
    dsimp only at h
    by_cases hv : stored.version = cs.version
    · rw [if_pos hv] at h
      simp at h
    · rw [if_neg hv] at h
      injection h with h
      exact h.symm

/-- The mark* operations only ever throw the optimistic-lock error or an
INVALID_STATUS_TRANSITION app error. -/
theorem markStatus_error_shape (tgt : Status) (sid uid : String) (now : Nat)
    (st : Store) (e : Err) (h : (markStatus tgt sid uid now st).1 = Except.error e) :
    e = Err.optimisticLock ∨ ∃ src, e = Err.app (invalidTransitionError src tgt) := by
  rcases hfs : findSessionById sid uid st with _ | sess
  · simp [markStatus, hfs] at h
  · by_cases hmem : tgt ∈ ALLOWED_TRANSITIONS sess.status
    · rcases hu : updateSession { sess with status := tgt } now st with ⟨r, st'⟩
      cases r with
      | ok u => simp [markStatus, hfs, hmem, hu] at h
      | error e2 =>
        have he2 : e2 = Err.optimisticLock := by
          have := updateSession_error_shape { sess with status := tgt } now st e2
          rw [hu] at this
          exact this rfl
        simp [markStatus, hfs, hmem, hu] at h
        exact Or.inl (h ▸ he2)
    · simp [markStatus, hfs, hmem] at h
      exact Or.inr ⟨sess.status, h.symm⟩

/-- The store of the race winner: a full successful `createNewMessage` on a
fresh active session. -/
def raceWinnerStore : Store :=
  (createNewMessage testDecrypt testEncrypt "m1" 1 true "u1" "s1" "hello"
    storeFreshActive).store

/-- The race loser: its status check and sequence-number computation ran
against the pre-race store (`computeNextSeq = 0`), and its `try` block
(insert, publish, flip) then executes against the winner's committed
store. -/
def raceLoserRun : RunResult SafeChatMessage :=
  createNewMessageTail testDecrypt "m2" 2 true "u1" "s1" (testEncrypt "again") 0
    raceWinnerStore

/-- C1: the (session id, sequence number) pair is NOT enforced by the store:
the `chat_messages` entity declares no unique constraint, so when two
concurrent `createNewMessage` calls compute the same next sequence number
(both read the empty session, `computeNextSeq = 0`), the loser's insert
silently succeeds — the store ends with two messages of the same session
and sequence number 0 — and the loser then fails on the later
waiting_for_bot flip with INVALID_STATUS_TRANSITION, never with
MESSAGE_SEQUENCE_CONFLICT; indeed no run of `createNewMessage`, on any
store, can produce the MESSAGE_SEQUENCE_CONFLICT error that the catch
handler for the undeclared `unique_session_sequence` constraint would map
to. -/
theorem C1_sequence_conflict_unreachable :
    (computeNextSeq "u1" "s1" storeFreshActive = 0 ∧
     (createNewMessage testDecrypt testEncrypt "m1" 1 true "u1" "s1" "hello"
       storeFreshActive).result.isOk = true ∧
     raceLoserRun.result = Except.error (Err.app (invalidTransitionError
       Status.waiting_for_bot Status.waiting_for_bot)) ∧
     isSequenceConflictResult raceLoserRun.result = false ∧
     raceLoserRun.store.messages.map (fun m => (m.session_id, m.sequence_number)) =
       [("s1", 0), ("s1", 0)]) ∧
    (∀ (dec : EncryptedField → String) (enc : String → EncryptedField)
      (nid : String) (now : Nat) (pub : Bool) (uid sid content : String)
      (st : Store),
      isSequenceConflictResult
        (createNewMessage dec enc nid now pub uid sid content st).result = false) := by
  refine ⟨⟨by decide, by decide, by decide, by decide, by decide⟩, ?_⟩
  intro dec enc nid now pub uid sid content st
  rcases hfs : findSessionById sid uid st with _ | sess
  · simp only [createNewMessage, hfs]
    exact isSequenceConflictResult_app sessionNotFoundError (by decide)
  · by_cases hblk : sess.status ∈ BLOCKED_STATUSES
    · simp only [createNewMessage, hfs, hblk, if_true]
      exact isSequenceConflictResult_app (blockedStatusError sess.status)
        (by cases sess.status <;> decide)
    · simp only [createNewMessage, hfs, hblk, if_false]
      generalize hef : enc content = ef
      generalize hn : computeNextSeq uid sid st = n
      cases pub with
      | false =>
        simp only [createNewMessageTail, Bool.false_eq_true, if_false]
        rfl
      | true =>
        simp only [createNewMessageTail, if_true]
        rcases hmw : markWaitingForBot sid uid now
            (createMessage nid now uid sid Role.student ef n st).2 with ⟨r, st2⟩
        cases r with
        | ok u => simp [hmw, isSequenceConflictResult]
        | error e =>
          have hshape := markStatus_error_shape Status.waiting_for_bot sid uid now
            (createMessage nid now uid sid Role.student ef n st).2 e
          rw [show markStatus Status.waiting_for_bot sid uid now
              (createMessage nid now uid sid Role.student ef n st).2 =
              markWaitingForBot sid uid now
                (createMessage nid now uid sid Role.student ef n st).2 from rfl,
            hmw] at hshape
          rcases hshape rfl with he | ⟨src, he⟩
          · subst he
            simp [hmw, mapSequenceConflict, isSequenceConflictResult]
          · subst he
            simp only [hmw, mapSequenceConflict]
            exact isSequenceConflictResult_app _
              (invalidTransition_ne_seqConflict src Status.waiting_for_bot)

/-- Messages of the session (soft-deleted rows included), in storage order. -/
def sessionMessages (user_id session_id : String) (st : Store) : List ChatMessage :=
  st.messages.filter (msgOfSession user_id session_id)

/-- The most recent message of the session, soft-deleted rows included. -/
def mostRecentSessionMessage (user_id session_id : String) (st : Store) :
    Option ChatMessage :=
  latestByCreatedAt (sessionMessages user_id session_id st)

/-- Whether creation timestamps strictly increase along the list. -/
def createdIncreasingB : List ChatMessage → Bool
  | [] => true
  | [_] => true
  | a :: b :: t => decide (a.created_at < b.created_at) && createdIncreasingB (b :: t)

/-- Contiguity invariant of a session's message list: sequence numbers read
0, 1, …, length-1 in storage order, creation timestamps strictly increase,
and nothing is soft-deleted. -/
def contiguousB (l : List ChatMessage) : Bool :=
  (decide (l.map (fun m => m.sequence_number) = List.range l.length) &&
    createdIncreasingB l) && l.all (fun m => !m.is_deleted)

/-- The createdAt scan returns an element of the list. -/
theorem foldl_laterOf_mem : ∀ (l : List ChatMessage) (acc : Option ChatMessage)
    (m : ChatMessage), l.foldl laterOf acc = some m → acc = some m ∨ m ∈ l
  | [], _, _, h => Or.inl h
  | a :: t, acc, m, h => by
    rcases foldl_laterOf_mem t (laterOf acc a) m h with h1 | h1
    · rcases acc with _ | b
      · have ha : a = m := by simpa [laterOf] using h1
        exact Or.inr (ha ▸ List.mem_cons_self a t)
      · by_cases hgt : a.created_at > b.created_at
        · have ha : a = m := by simpa [laterOf, hgt] using h1
          exact Or.inr (ha ▸ List.mem_cons_self a t)
        · have hb : b = m := by simpa [laterOf, hgt] using h1
          exact Or.inl (by rw [hb])
    · exact Or.inr (List.mem_cons_of_mem a h1)

/-- `latestByCreatedAt` returns an element of the list. -/
theorem latestByCreatedAt_mem (l : List ChatMessage) (m : ChatMessage)
    (h : latestByCreatedAt l = some m) : m ∈ l := by
  rcases foldl_laterOf_mem l none m h with h1 | h1
  · simp at h1
  · exact h1

/-- On a strictly increasing list the scan accumulates to the last element. -/
theorem foldl_laterOf_increasing : ∀ (t : List ChatMessage) (a : ChatMessage),
    createdIncreasingB (a :: t) = true →
    List.foldl laterOf (some a) t = (a :: t).getLast?
  | [], _, _ => rfl
  | b :: t, a, h => by
    have h2 : a.created_at < b.created_at ∧ createdIncreasingB (b :: t) = true := by
      simpa [createdIncreasingB] using h
    have hstep : laterOf (some a) b = some b := by
      simp [laterOf, h2.1]
    show List.foldl laterOf (laterOf (some a) b) t = _
    rw [hstep, foldl_laterOf_increasing t b h2.2, List.getLast?_cons_cons]

/-- On a strictly increasing list the latest row is the last row. -/
theorem latestByCreatedAt_increasing (l : List ChatMessage)
    (h : createdIncreasingB l = true) : latestByCreatedAt l = l.getLast? := by
  cases l with
  | nil => rfl
  | cons a t => exact foldl_laterOf_increasing t a h

/-- Appending a strictly later row preserves increasing timestamps. -/
theorem createdIncreasingB_append (e : ChatMessage) : ∀ (l : List ChatMessage),
    createdIncreasingB l = true → (∀ m ∈ l, m.created_at < e.created_at) →
    createdIncreasingB (l ++ [e]) = true
  | [], _, _ => rfl
  | [a], _, hlt => by
    have ha := hlt a (List.mem_singleton.mpr rfl)
    simp [createdIncreasingB, ha]
  | a :: b :: t, h, hlt => by
    have h2 : a.created_at < b.created_at ∧ createdIncreasingB (b :: t) = true := by
      simpa [createdIncreasingB] using h
    have hrec := createdIncreasingB_append e (b :: t) h2.2
      (fun m hm => hlt m (List.mem_cons_of_mem a hm))
    show createdIncreasingB (a :: b :: (t ++ [e])) = true
    simp only [createdIncreasingB, Bool.and_eq_true, decide_eq_true_eq]
    exact ⟨h2.1, hrec⟩

/-- Dropping the appended row preserves increasing timestamps. -/
theorem createdIncreasingB_of_append (d : ChatMessage) : ∀ (l : List ChatMessage),
    createdIncreasingB (l ++ [d]) = true → createdIncreasingB l = true
  | [], _ => rfl
  | [_], _ => rfl
  | a :: b :: t, h => by
    have h2 : a.created_at < b.created_at ∧
        createdIncreasingB ((b :: t) ++ [d]) = true := by
      simpa [createdIncreasingB] using h
    have hrec := createdIncreasingB_of_append d (b :: t) h2.2
    simp only [createdIncreasingB, Bool.and_eq_true, decide_eq_true_eq]
    exact ⟨h2.1, hrec⟩

/-- The live filter of `findLatestMessageBySession` is the is_deleted filter
of the session's messages. -/
theorem filter_msgLive_eq (user_id session_id : String) (st : Store) :
    st.messages.filter (msgLive user_id session_id) =
      (sessionMessages user_id session_id st).filter (fun m => !m.is_deleted) := by
  simp only [sessionMessages]
  rw [List.filter_filter]
  apply List.filter_congr
  intro m _
  by_cases hu : m.user_id = user_id <;> by_cases hs : m.session_id = session_id <;>
    cases hd : m.is_deleted <;> simp [msgLive, msgOfSession, hu, hs, hd]

/-- The last element of `range (n+1)` is `n`. -/
theorem range_getLast?_eq (n : Nat) : (List.range (n + 1)).getLast? = some n := by
  have h : List.range (n + 1) = List.range n ++ [n] := by
    simpa using List.range_succ (n := n)
  rw [h, List.getLast?_concat]

/-- A soft-deleted message with sequence number 1, newest in its session. -/
def delMsg1 : ChatMessage :=
  { userMsg0 with
    message_id := "d1"
    sequence_number := 1
    created_at := 1
    is_deleted := true }

/-- A soft-deleted message with sequence number 2, newest in its session. -/
def delMsg2 : ChatMessage :=
  { userMsg0 with
    message_id := "d2"
    sequence_number := 2
    created_at := 2
    is_deleted := true }

/-- Store whose session holds sequences 0 (live) and 1 (soft-deleted, most
recent). -/
def storeWithDeletedTail : Store :=
  { sessions := [sessionActive], messages := [userMsg0, delMsg1] }

/-- Store whose session holds sequences 0 (live), 1 and 2 (both soft-deleted,
2 most recent). -/
def storeTrailingDeletes : Store :=
  { sessions := [sessionActive], messages := [userMsg0, delMsg1, delMsg2] }

/-- C4, counterexample: sequence numbers assigned within a session are NOT
duplicate-free in general: in a session whose most recent message (sequence
1) is soft-deleted, `createNewMessage` succeeds and assigns sequence 1 a
second time, so the store ends with two distinct messages of the session
carrying sequence number 1. -/
theorem C4_counterexample :
    (createNewMessage testDecrypt testEncrypt "m4" 7 true "u1" "s1" "dup"
      storeWithDeletedTail).result.isOk = true ∧
    (createNewMessage testDecrypt testEncrypt "m4" 7 true "u1" "s1" "dup"
      storeWithDeletedTail).store.messages.map (fun m => m.sequence_number) =
      [0, 1, 1] ∧
    decide (((createNewMessage testDecrypt testEncrypt "m4" 7 true "u1" "s1" "dup"
      storeWithDeletedTail).store.messages.map (fun m => m.sequence_number)).Nodup)
      = false :=
  ⟨by decide, by decide, by decide⟩

/-- C4 (amended): `createNewMessage` assigns the next sequence number as
(latest non-soft-deleted message's sequence number) + 1, or 0 when no
non-deleted message exists; consequently, as long as no message of the
session has been soft-deleted (and creation timestamps increase with
insertion order), the per-session sequence numbers form exactly 0, 1, …,
n-1 — strictly increasing, no gaps, no duplicates — and the invariant is
preserved by each insert (student or bot) performed with this rule. -/
theorem C4_next_sequence_contiguous (uid sid : String) (st : Store)
    (role : Role) (ef : EncryptedField) (nid : String) (now : Nat)
    (hc : contiguousB (sessionMessages uid sid st) = true)
    (hfresh : ∀ m ∈ sessionMessages uid sid st, m.created_at < now) :
    (∀ m, findLatestMessageBySession uid sid st = some m →
      computeNextSeq uid sid st = m.sequence_number + 1) ∧
    (findLatestMessageBySession uid sid st = none →
      computeNextSeq uid sid st = 0) ∧
    computeNextSeq uid sid st = (sessionMessages uid sid st).length ∧
    contiguousB (sessionMessages uid sid
      ((createMessage nid now uid sid role ef (computeNextSeq uid sid st) st).2))
      = true := by
  obtain ⟨⟨hmap, hinc⟩, hnd⟩ :
      ((sessionMessages uid sid st).map (fun m => m.sequence_number) =
        List.range (sessionMessages uid sid st).length ∧
        createdIncreasingB (sessionMessages uid sid st) = true) ∧
      (sessionMessages uid sid st).all (fun m => !m.is_deleted) = true := by
    simpa [contiguousB, Bool.and_eq_true, decide_eq_true_eq] using hc
  have hfl : st.messages.filter (msgLive uid sid) = sessionMessages uid sid st := by
    rw [filter_msgLive_eq]
    exact List.filter_eq_self.mpr (fun m hm => List.all_eq_true.mp hnd m hm)
  have hlatest : findLatestMessageBySession uid sid st =
      (sessionMessages uid sid st).getLast? := by
    rw [findLatestMessageBySession, hfl]
    exact latestByCreatedAt_increasing _ hinc
  have hnext : computeNextSeq uid sid st = (sessionMessages uid sid st).length := by
    rw [computeNextSeq, hlatest]
    rcases hgl : (sessionMessages uid sid st).getLast? with _ | x
    · have hnil : sessionMessages uid sid st = [] := by
        rwa [List.getLast?_eq_none_iff] at hgl
      simp [hnil]
    · have hne : sessionMessages uid sid st ≠ [] := by
        intro he
        rw [he] at hgl
        simp at hgl
      have hlen : 1 ≤ (sessionMessages uid sid st).length := by
        rcases hl2 : sessionMessages uid sid st with _ | ⟨a, t⟩
        · exact absurd hl2 hne
        · simp
      have h1 : ((sessionMessages uid sid st).map
          (fun m => m.sequence_number)).getLast? = some x.sequence_number := by
        rw [List.getLast?_map, hgl]
        rfl
      have h2 : (List.range (sessionMessages uid sid st).length).getLast? =
          some ((sessionMessages uid sid st).length - 1) := by
        obtain ⟨k, hk⟩ : ∃ k, (sessionMessages uid sid st).length = k + 1 :=
          ⟨(sessionMessages uid sid st).length - 1, by omega⟩
        rw [hk]
        simpa using range_getLast?_eq k
      rw [hmap, h2] at h1
      have hx : x.sequence_number = (sessionMessages uid sid st).length - 1 :=
        (Option.some.inj h1).symm
      dsimp only
      omega
  refine ⟨?_, ?_, hnext, ?_⟩
  · intro m hm
    simp [computeNextSeq, hm]
  · intro hm
    simp [computeNextSeq, hm]
  · have hentry : msgOfSession uid sid
        ((createMessage nid now uid sid role ef (computeNextSeq uid sid st) st).1)
          = true := by
      simp [msgOfSession, createMessage]
    have hsm : sessionMessages uid sid
        ((createMessage nid now uid sid role ef (computeNextSeq uid sid st) st).2) =
        sessionMessages uid sid st ++
          [(createMessage nid now uid sid role ef (computeNextSeq uid sid st) st).1]
        := by
      simp only [sessionMessages, createMessage, List.filter_append,
        List.filter_cons, List.filter_nil]
      simp only [sessionMessages, createMessage] at hentry
      simp [hentry]
    rw [hsm]
    have hseq : ((createMessage nid now uid sid role ef (computeNextSeq uid sid st)
        st).1).sequence_number = (sessionMessages uid sid st).length := by
      rw [show ((createMessage nid now uid sid role ef (computeNextSeq uid sid st)
        st).1).sequence_number = computeNextSeq uid sid st from rfl, hnext]
    have hr : List.range ((sessionMessages uid sid st).length + 1) =
        List.range (sessionMessages uid sid st).length ++
          [(sessionMessages uid sid st).length] := by
      simpa using List.range_succ (n := (sessionMessages uid sid st).length)
    simp only [contiguousB, Bool.and_eq_true, decide_eq_true_eq]
    refine ⟨⟨?_, ?_⟩, ?_⟩
    · simp [List.map_append, hmap, hseq, List.length_append, hr]
    · exact createdIncreasingB_append _ _ hinc
        (fun m hm => by
          simpa [createMessage] using hfresh m hm)
    · simp [List.all_append, hnd, createMessage]

/-- C4, witness: at a store whose session holds exactly the live message of
sequence 0, the invariant holds, the next sequence number is 1 (= length),
and inserting with it preserves contiguity. -/
theorem C4_next_sequence_contiguous_witness :
    contiguousB (sessionMessages "u1" "s1" (Store.mk [sessionActive] [userMsg0]))
      = true ∧
    (computeNextSeq "u1" "s1" (Store.mk [sessionActive] [userMsg0]) =
        (sessionMessages "u1" "s1" (Store.mk [sessionActive] [userMsg0])).length ∧
      contiguousB (sessionMessages "u1" "s1"
        ((createMessage "w4" 5 "u1" "s1" Role.student (testEncrypt "w")
          (computeNextSeq "u1" "s1" (Store.mk [sessionActive] [userMsg0]))
          (Store.mk [sessionActive] [userMsg0])).2)) = true) :=
  ⟨by decide,
    (C4_next_sequence_contiguous "u1" "s1" (Store.mk [sessionActive] [userMsg0])
      Role.student (testEncrypt "w") "w4" 5 (by decide) (by decide)).2.2⟩

/-- C10, counterexample: in a session with sequences 0 (live), 1 and 2 (both
soft-deleted, 2 being the most recent message), the next appended message is
assigned sequence 1, not the sequence 2 held by the most recent soft-deleted
message — the claim's universally stated equality fails. -/
theorem C10_counterexample :
    mostRecentSessionMessage "u1" "s1" storeTrailingDeletes = some delMsg2 ∧
    delMsg2.is_deleted = true ∧
    delMsg2.sequence_number = 2 ∧
    computeNextSeq "u1" "s1" storeTrailingDeletes = 1 ∧
    decide (computeNextSeq "u1" "s1" storeTrailingDeletes =
      delMsg2.sequence_number) = false ∧
    (createNewMessage testDecrypt testEncrypt "m5" 9 true "u1" "s1" "x"
      storeTrailingDeletes).store.messages.map (fun m => m.sequence_number) =
      [0, 1, 2, 1] :=
  ⟨by decide, by decide, by decide, by decide, by decide, by decide⟩

/-- C10 (amended): `createNewMessage` computes the next sequence number only
from messages whose soft-delete flag is false (the latest live message),
ignoring soft-deleted rows; hence when the session's messages are
contiguously numbered and exactly its most recent message is soft-deleted,
the next appended message is assigned precisely the sequence number that
soft-deleted message already holds, so soft deletion makes an already-used
sequence number be assigned again.  (With several trailing soft-deleted
messages the reassigned number is latest-live + 1, which may differ from
the most recent deleted row's number.) -/
theorem C10_soft_delete_reuses_sequence (uid sid : String) (st : Store)
    (l : List ChatMessage) (d : ChatMessage)
    (hsm : sessionMessages uid sid st = l ++ [d])
    (hd : d.is_deleted = true)
    (hl : l.all (fun m => !m.is_deleted) = true)
    (hinc : createdIncreasingB (l ++ [d]) = true)
    (hmap : (l ++ [d]).map (fun m => m.sequence_number) =
      List.range (l.length + 1)) :
    (∀ (st2 : Store) (m : ChatMessage),
      findLatestMessageBySession uid sid st2 = some m → m.is_deleted = false) ∧
    computeNextSeq uid sid st = d.sequence_number := by
  constructor
  · intro st2 m hm
    rw [findLatestMessageBySession] at hm
    have hmem := latestByCreatedAt_mem _ m hm
    have hp := (List.mem_filter.mp hmem).2
    have hq := of_decide_eq_true hp
    exact hq.2.2
  · have hfl : st.messages.filter (msgLive uid sid) = l := by
      rw [filter_msgLive_eq, hsm, List.filter_append]
      have h1 : l.filter (fun m => !m.is_deleted) = l :=
        List.filter_eq_self.mpr (fun m hm => List.all_eq_true.mp hl m hm)
      have h2 : [d].filter (fun m => !m.is_deleted) = [] := by
        simp [List.filter, hd]
      rw [h1, h2, List.append_nil]
    have hincl : createdIncreasingB l = true := createdIncreasingB_of_append d l hinc
    rw [computeNextSeq, findLatestMessageBySession, hfl,
      latestByCreatedAt_increasing l hincl]
    have hr : List.range (l.length + 1) = List.range l.length ++ [l.length] := by
      simpa using List.range_succ (n := l.length)
    simp only [List.map_append, List.map_cons, List.map_nil, hr] at hmap
    obtain ⟨h5, h6⟩ := List.append_inj hmap (by simp)
    have hd6 : d.sequence_number = l.length := by simpa using h6
    rcases hgl : l.getLast? with _ | x
    · have hnil : l = [] := by rwa [List.getLast?_eq_none_iff] at hgl
      subst hnil
      dsimp only
      simp at hd6
      omega
    · have hne : l ≠ [] := by
        intro he
        rw [he] at hgl
        simp at hgl
      have hlen1 : 1 ≤ l.length := by
        rcases hl2 : l with _ | ⟨a, t⟩
        · exact absurd hl2 hne
        · simp
      have h1 : (l.map (fun m => m.sequence_number)).getLast? =
          some x.sequence_number := by
        rw [List.getLast?_map, hgl]
        rfl
      have h2 : (List.range l.length).getLast? = some (l.length - 1) := by
        obtain ⟨k, hk⟩ : ∃ k, l.length = k + 1 := ⟨l.length - 1, by omega⟩
        rw [hk]
        simpa using range_getLast?_eq k
      rw [h5, h2] at h1
      have hx := (Option.some.inj h1).symm
      dsimp only
      omega

/-- C10, witness: in a session holding the live sequence 0 and a most recent
soft-deleted sequence 1, the next computed sequence number is exactly the
soft-deleted message's sequence number 1. -/
theorem C10_soft_delete_reuses_sequence_witness :
    sessionMessages "u1" "s1" storeWithDeletedTail = [userMsg0] ++ [delMsg1] ∧
    delMsg1.is_deleted = true ∧
    computeNextSeq "u1" "s1" storeWithDeletedTail = delMsg1.sequence_number :=
  ⟨by decide, by decide,
    (C10_soft_delete_reuses_sequence "u1" "s1" storeWithDeletedTail [userMsg0]
      delMsg1 (by decide) (by decide) (by decide) (by decide) (by decide)).2⟩

end Heron
